import Mathlib

/-!
Shallow embedding of the wyst token-stream parser (`src/parser.rs`) and of the
symbol-table registration contract it exercises, together with theorems about
the parser's dispatch behaviour.

The parser is `Parser::parse`: a single forward cursor over a flat token
buffer, an ordered chain of lookahead rules, one `Ast` node appended per loop
iteration, and symbol-table registrations (`new_struct`, `new_namespace`,
`new_func`, `new_var`) performed as side effects at declaration rules.

Rust panics are modelled as `Except.error`: the explicit
`panic!("Reached the end of tokens")` check at the top of the loop body is
`PanicKind.endOfTokens`, and an out-of-bounds `Vec` index (the parser indexes
`tokens[index + 1]` without a length guard in the `Keyword`/`StaticExecution`
arms) is `PanicKind.indexOOB`.
-/

namespace Wyst

/-- Modelled from the spec: the lexer (`src/lexer.rs`, not present in the
sources) produces tokens carrying a classification tag; the tag set is the one
listed in spec section 3 and consumed by `parser.rs`. -/
inductive TokenType where
  | Identifier
  | Keyword
  | Keyword1
  | Keyword2
  | Curly
  | Round
  | Square
  | Angle
  | Include
  | StaticExecution
  | Comment
  | String
deriving DecidableEq, Repr

/-- Modelled from the spec: a token is a classification tag, a textual value
and a source position (line, column), as produced by the external lexer and
consumed by `parser.rs`. -/
structure Token where
  token_type : TokenType
  value : String
  line : Nat
  column : Nat
deriving DecidableEq, Repr

/-- Modelled from the spec: the position record (`LexerState { line, column }`)
the parser hands to every symbol-table registration. -/
structure LexerState where
  line : Nat
  column : Nat
deriving DecidableEq, Repr

/-- The `AstType` enum of `parser.rs`. -/
inductive AstType where
  | Ref
  | FunctionDeceleration
  | StructDeceleration
  | StructCall
  | StructVar
  | VoidFunctionDeceleration
  | Namespace
  | VariableDeceleration
  | PointerDeceleration
  | MutVariableDeceleration
  | State3
  | State2
  | Include
  | IncludeLocal
  | CodeBlock
  | Json
  | Impl
  | StaticExecution
  | Other
deriving DecidableEq, Repr

/-- The `Ast` struct of `parser.rs`: captured tokens plus a tag. -/
structure Ast where
  tokens : List Token
  ast_type : AstType
deriving DecidableEq, Repr

/-- `is_decl` from `parser.rs`. -/
def is_decl (ast : Ast) : Bool :=
  ast.ast_type == AstType.FunctionDeceleration
    || ast.ast_type == AstType.VoidFunctionDeceleration
    || ast.ast_type == AstType.Namespace
    || ast.ast_type == AstType.VariableDeceleration
    || ast.ast_type == AstType.PointerDeceleration
    || ast.ast_type == AstType.MutVariableDeceleration
    || ast.ast_type == AstType.StructDeceleration

/-- Modelled from the spec: the symbol table (`Variables`, from
`src/variable.rs`, not present in the sources) exposes four registration
operations, one per declaration kind (spec section 6). -/
inductive RegKind where
  | rstruct
  | rnamespace
  | rfunc
  | rvar
deriving DecidableEq, Repr

/-- Modelled from the spec: one symbol-table registration call, recording the
operation kind and its `(name, position, doc)` arguments; the table itself is
modelled as the append-only list of such calls, in call order (spec section 6
says only this registration contract matters to the parser). -/
structure Reg where
  kind : RegKind
  name : String
  pos : LexerState
  doc : String
deriving DecidableEq, Repr

/-- The two Rust panic sources inside `Parser::parse`: the explicit
`panic!("Reached the end of tokens")`, and an out-of-bounds `Vec` index. -/
inductive PanicKind where
  | endOfTokens
  | indexOOB
deriving DecidableEq, Repr

/-- Matches a literal character sequence at the head of the input, returning
the rest. Used to model the anchored `#include` literal of the two regexes. -/
def stripLit : List Char → List Char → Option (List Char)
  | [], s => some s
  | _ :: _, [] => none
  | p :: ps, c :: cs => if p = c then stripLit ps cs else none

/-- Models the lazy capture `(.*?)c` of the include regexes: the characters up
to the first occurrence of the closing character, failing on a newline (the
regex `.` metacharacter does not match a newline) or if the closing character
never occurs. -/
def scanCapture (closeCh : Char) : List Char → Option (List Char)
  | [] => none
  | c :: rest =>
    if c = closeCh then some []
    else if c = '\n' then none
    else (scanCapture closeCh rest).map (fun l => c :: l)

/-- Model of the two anchored include regexes of `Parser::new`,
`^(#include *)<(.*?)>` (with `openCh = '<'`, `closeCh = '>'`) and
`^(#include *)"(.*?)"` (with both characters `'"'`): the literal `#include`,
then any number of spaces, then the opening character, then the lazily-matched
capture group 2 (returned here), then the closing character. -/
def includeCapture (openCh closeCh : Char) (s : String) : Option String :=
  match stripLit "#include".data s.data with
  | none => none
  | some rest =>
    match rest.dropWhile (fun c => c = ' ') with
    | [] => none
    | c :: rest2 =>
      if c = openCh then (scanCapture closeCh rest2).map (fun l => ⟨l⟩)
      else none

/-- The token at buffer position `i`; `parser.rs` only reads positions whose
bounds are established by the loop guard or a branch's length test, except in
the `Keyword`/`StaticExecution` arms, which are modelled with an explicit
bounds test returning `PanicKind.indexOOB`. -/
def tokAt (toks : List Token) (i : Nat) : Token :=
  toks.getD i ⟨TokenType.String, "", 0, 0⟩

/-- The doc-comment lookback performed at every declaration branch of
`parser.rs`: `if index > 0 && tokens[index - 1].token_type == Comment` take
that token's text, else the empty string. -/
def docAt (toks : List Token) (i : Nat) : String :=
  if 0 < i ∧ (tokAt toks (i - 1)).token_type = TokenType.Comment then
    (tokAt toks (i - 1)).value
  else ""

/-- The position record built by `parser.rs` for a registration. -/
def posOf (t : Token) : LexerState :=
  LexerState.mk t.line t.column

/-- The `TokenType::Identifier` arm of the dispatch match in `Parser::parse`
(`src/parser.rs` lines 193-315), translated sub-case for sub-case.  The arm
first pushes the current token (line 194), then tests, in order: the function
form, the struct-call form, the struct-var form, and — only when at least one
more token remains — the plain variable form, the generic-type (`Angle`) form
and the pointer form.  It returns the emitted node, the registrations the
sub-case performs, and the amount the sub-case adds to `self.index`.  This arm
performs no unguarded lookahead, so it cannot panic. -/
def identStep (toks : List Token) (i : Nat) : Ast × List Reg × Nat :=
  if toks.length - i > 3 ∧ (tokAt toks (i + 1)).token_type = .Identifier
      ∧ (tokAt toks (i + 2)).token_type = .Round
      ∧ (tokAt toks (i + 3)).token_type = .Curly then
    (⟨[tokAt toks i, tokAt toks (i + 1), tokAt toks (i + 2), tokAt toks (i + 3)],
        if (tokAt toks i).value = "void" then .VoidFunctionDeceleration else .FunctionDeceleration⟩,
      [⟨.rfunc, (tokAt toks (i + 1)).value, posOf (tokAt toks (i + 1)), docAt toks i⟩], 3)
  else if toks.length - i > 1 ∧ (tokAt toks (i + 1)).token_type = .Curly then
    (⟨[tokAt toks i, tokAt toks (i + 1)], .StructCall⟩, [], 1)
  else if toks.length - i > 2 ∧ (tokAt toks (i + 1)).token_type = .Identifier
      ∧ (tokAt toks (i + 2)).token_type = .Curly then
    (⟨[tokAt toks i, tokAt toks (i + 1), tokAt toks (i + 2)], .StructVar⟩,
      [⟨.rvar, (tokAt toks (i + 1)).value, posOf (tokAt toks (i + 1)), docAt toks i⟩], 2)
  else if toks.length - i > 1 then
    if (tokAt toks (i + 1)).token_type = .Identifier then
      (⟨[tokAt toks i, tokAt toks (i + 1)], .VariableDeceleration⟩,
        [⟨.rvar, (tokAt toks (i + 1)).value, posOf (tokAt toks (i + 1)), docAt toks i⟩], 1)
    else if toks.length - i > 2 ∧ (tokAt toks (i + 2)).token_type = .Identifier
        ∧ (tokAt toks (i + 1)).token_type = .Angle then
      (⟨[{ tokAt toks i with value := (tokAt toks i).value ++ "<" ++ (tokAt toks (i + 1)).value ++ ">" },
          tokAt toks (i + 2)], .VariableDeceleration⟩,
        [⟨.rvar, (tokAt toks (i + 1)).value, posOf (tokAt toks (i + 1)), docAt toks i⟩], 2)
    else if toks.length - i > 2 ∧ (tokAt toks (i + 1)).value = "*"
        ∧ (tokAt toks (i + 2)).token_type = .Identifier then
      (⟨[tokAt toks i, tokAt toks (i + 2)], .PointerDeceleration⟩,
        [⟨.rvar, (tokAt toks (i + 1)).value, posOf (tokAt toks (i + 1)), docAt toks i⟩], 2)
    else
      (⟨[tokAt toks i], .Other⟩, [], 0)
  else
    (⟨[tokAt toks i], .Other⟩, [], 0)

/-- The `TokenType::Include` arm (`src/parser.rs` lines 316-337): the
angle-form regex is tried first, then the quoted-form regex, each emitting a
freshly synthesized `String` token at line 0, column 0 holding the captured
path text; with no match the raw token is carried through under tag
`Include`.  The arm never registers and never advances the cursor beyond the
shared `self.index += 1`. -/
def includeStep (t : Token) : Ast :=
  match includeCapture '<' '>' t.value with
  | some p => ⟨[⟨.String, p, 0, 0⟩], .Include⟩
  | none =>
    match includeCapture '"' '"' t.value with
    | some p => ⟨[⟨.String, p, 0, 0⟩], .IncludeLocal⟩
    | none => ⟨[t], .Include⟩

/-- The `TokenType::Keyword` arm (`src/parser.rs` lines 338-348): when the
value is `"cb"` the code reads `self.tokens[index + 1]` with no length guard,
so a trailing `cb` keyword panics with an out-of-bounds index. -/
def keywordStep (toks : List Token) (i : Nat) :
    Except PanicKind (Ast × List Reg × Nat) :=
  if (tokAt toks i).value = "cb" then
    if i + 1 < toks.length then
      if (tokAt toks (i + 1)).token_type = .Curly then
        .ok (⟨[tokAt toks (i + 1)], .CodeBlock⟩, [], 1)
      else
        .ok (⟨[tokAt toks i], .Other⟩, [], 0)
    else
      .error .indexOOB
  else
    .ok (⟨[tokAt toks i], .Other⟩, [], 0)

/-- The `TokenType::StaticExecution` arm (`src/parser.rs` lines 349-354): it
reads `self.tokens[index + 1]` with no length guard (a trailing token of this
type panics); on a following `Square` it captures that square token but adds
nothing to `self.index`, and with any other follower it emits an
empty-capture `Other` node. -/
def staticStep (toks : List Token) (i : Nat) :
    Except PanicKind (Ast × List Reg × Nat) :=
  if i + 1 < toks.length then
    if (tokAt toks (i + 1)).token_type = .Square then
      .ok (⟨[tokAt toks (i + 1)], .StaticExecution⟩, [], 0)
    else
      .ok (⟨[], .Other⟩, [], 0)
  else
    .error .indexOOB

/-- One iteration of the dispatch chain in the body of `Parser::parse`,
translated branch for branch from `src/parser.rs` lines 107-358 (the match
arms living in `identStep`, `includeStep`, `keywordStep`, `staticStep`):
given the buffer, the cursor `i` and the `json` flag, it returns the emitted
`Ast` node, the registrations performed by the winning branch (in call
order), and the amount added to `self.index` by the branch body (the loop
adds one more afterwards, `self.index += 1`), or the panic produced by an
unguarded `tokens[index + 1]` access. -/
def parseStep (toks : List Token) (i : Nat) (json : Bool) :
    Except PanicKind (Ast × List Reg × Nat) :=
  if json = true ∧ toks.length - i > 2 ∧ (tokAt toks (i + 1)).value = ":" then
    .ok (⟨[tokAt toks i, tokAt toks (i + 2)], .Json⟩, [], 2)
  else if toks.length - i > 1 ∧ (tokAt toks i).value = "&"
      ∧ (tokAt toks (i + 1)).token_type = .Identifier then
    .ok (⟨[tokAt toks (i + 1)], .Ref⟩, [], 1)
  else if toks.length - i > 2 ∧ (tokAt toks i).value = "struct"
      ∧ (tokAt toks (i + 1)).token_type = .Identifier
      ∧ (tokAt toks (i + 2)).token_type = .Curly then
    .ok (⟨[tokAt toks (i + 1), tokAt toks (i + 2)], .StructDeceleration⟩,
      [⟨.rstruct, (tokAt toks (i + 1)).value, posOf (tokAt toks (i + 1)), docAt toks i⟩], 2)
  else if toks.length - i > 2 ∧ (tokAt toks i).value = "namespace"
      ∧ (tokAt toks (i + 1)).token_type = .Identifier
      ∧ (tokAt toks (i + 2)).token_type = .Curly then
    .ok (⟨[tokAt toks (i + 1), tokAt toks (i + 2)], .Namespace⟩,
      [⟨.rnamespace, (tokAt toks (i + 1)).value, posOf (tokAt toks (i + 1)), docAt toks i⟩], 2)
  else if toks.length - i > 2 ∧ (tokAt toks i).value = "impl"
      ∧ (tokAt toks (i + 1)).token_type = .Identifier
      ∧ (tokAt toks (i + 2)).token_type = .Curly then
    .ok (⟨[tokAt toks (i + 1), tokAt toks (i + 2)], .Impl⟩, [], 2)
  else if toks.length - i > 2 ∧ (tokAt toks i).token_type = .Keyword1
      ∧ (tokAt toks (i + 1)).token_type = .Round
      ∧ (tokAt toks (i + 2)).token_type = .Curly then
    .ok (⟨[tokAt toks i, tokAt toks (i + 1), tokAt toks (i + 2)], .State3⟩, [], 2)
  else if toks.length - i > 1 ∧ (tokAt toks i).token_type = .Keyword2
      ∧ (tokAt toks (i + 1)).token_type = .Curly then
    .ok (⟨[tokAt toks i, tokAt toks (i + 1)], .State2⟩, [], 1)
  else
    match (tokAt toks i).token_type with
    | .Identifier => .ok (identStep toks i)
    | .Include => .ok (includeStep (tokAt toks i), [], 0)
    | .Keyword => keywordStep toks i
    | .StaticExecution => staticStep toks i
    | _ => .ok (⟨[tokAt toks i], .Other⟩, [], 0)

/-- The `while self.tokens.len() > self.index` loop of `Parser::parse`.
The `fuel` argument makes the recursion structural: since every iteration
advances the cursor by at least one (`self.index += 1` runs unconditionally at
the bottom of the body), `toks.length - i` iterations always suffice, which
`parseLoop_fuel_enough` below makes precise.  Inside the guard, the body first
performs the source's `if index == self.tokens.len() { panic!(...) }` check. -/
def parseLoop : Nat → List Token → Nat → Bool → Except PanicKind (List Ast × List Reg)
  | 0, _, _, _ => .ok ([], [])
  | fuel + 1, toks, i, json =>
    if toks.length > i then
      if i = toks.length then .error .endOfTokens
      else
        match parseStep toks i json with
        | .error e => .error e
        | .ok (node, regs, d) =>
          match parseLoop fuel toks (i + d + 1) json with
          | .error e => .error e
          | .ok (nodes, regs2) => .ok (node :: nodes, regs ++ regs2)
    else .ok ([], [])

/-- `Parser::parse`, starting from cursor 0 with the given `json` flag
(`Parser::new` initializes `json` to `false`): the ordered emitted nodes and
the ordered symbol-table registrations, or the panic that aborted the parse. -/
def parse (toks : List Token) (json : Bool) : Except PanicKind (List Ast × List Reg) :=
  parseLoop toks.length toks 0 json

/-- Detects the `panic!("Reached the end of tokens")` outcome of a parse. -/
def hitsEndPanic : Except PanicKind (List Ast × List Reg) → Bool
  | .error .endOfTokens => true
  | _ => false

/-- Specification-side predicate relating one emitted node — emitted by the
iteration whose cursor stood at `i` — to the block of symbol-table
registrations performed by that iteration: declaration-tagged nodes (and
`StructVar` nodes) carry exactly one registration, of the kind of the
declaration; for struct, namespace, function, void-function, struct-var and
plain two-identifier variable nodes the registration's name and position are
those of the declared name token captured in the node; for the generic-type
variable form — distinguished from the plain form by the `Angle` token at
cursor position `i + 1` — the registration carries that `Angle` token's text
and position; for the pointer form the registration carries the star token's
text (always `"*"`) and position, the star token being the one at `i + 1`.
Every other tag registers nothing, and `MutVariableDeceleration` is never
emitted. -/
def nodeRegsOk (toks : List Token) (i : Nat) (a : Ast) (rs : List Reg) : Bool :=
  match a.ast_type, a.tokens, rs with
  | .StructDeceleration, [n, _], [r] =>
    r.kind == .rstruct && r.name == n.value && r.pos == ⟨n.line, n.column⟩
  | .Namespace, [n, _], [r] =>
    r.kind == .rnamespace && r.name == n.value && r.pos == ⟨n.line, n.column⟩
  | .FunctionDeceleration, [_, n, _, _], [r] =>
    r.kind == .rfunc && r.name == n.value && r.pos == ⟨n.line, n.column⟩
  | .VoidFunctionDeceleration, [_, n, _, _], [r] =>
    r.kind == .rfunc && r.name == n.value && r.pos == ⟨n.line, n.column⟩
  | .StructVar, [_, n, _], [r] =>
    r.kind == .rvar && r.name == n.value && r.pos == ⟨n.line, n.column⟩
  | .VariableDeceleration, [_, n], [r] =>
    r.kind == .rvar
      && (if (tokAt toks (i + 1)).token_type == TokenType.Identifier then
          r.name == n.value && r.pos == ⟨n.line, n.column⟩
        else
          (tokAt toks (i + 1)).token_type == TokenType.Angle
            && r.name == (tokAt toks (i + 1)).value
            && r.pos == ⟨(tokAt toks (i + 1)).line, (tokAt toks (i + 1)).column⟩)
  | .PointerDeceleration, [_, _], [r] =>
    r.kind == .rvar && r.name == "*"
      && r.name == (tokAt toks (i + 1)).value
      && r.pos == ⟨(tokAt toks (i + 1)).line, (tokAt toks (i + 1)).column⟩
  | .Ref, _, [] => true
  | .StructCall, _, [] => true
  | .State3, _, [] => true
  | .State2, _, [] => true
  | .Include, _, [] => true
  | .IncludeLocal, _, [] => true
  | .CodeBlock, _, [] => true
  | .Json, _, [] => true
  | .Impl, _, [] => true
  | .StaticExecution, _, [] => true
  | .Other, _, [] => true
  | _, _, _ => false

/-- The registration list of a parse decomposes into per-node blocks, in node
order: each step records the cursor position `i` at which its node was
emitted and the extra advance `d` of the rule that fired there, and relates
the node to its registration block by `nodeRegsOk` at that position. -/
inductive Chunked (toks : List Token) : Nat → List Ast → List Reg → Prop
  | nil (i : Nat) : Chunked toks i [] []
  | cons (i d : Nat) (a : Ast) (rs : List Reg) (ns : List Ast) (rs2 : List Reg) :
      nodeRegsOk toks i a rs = true → Chunked toks (i + d + 1) ns rs2 →
      Chunked toks i (a :: ns) (rs ++ rs2)

/-- Every outcome of the `Identifier` arm satisfies the node/registration
correspondence at its cursor position. -/
lemma identStep_regsOk (toks : List Token) (i : Nat)
    (a : Ast) (rs : List Reg) (d : Nat)
    (h : identStep toks i = (a, rs, d)) : nodeRegsOk toks i a rs = true := by
  unfold identStep at h
  repeat' split at h
  all_goals simp only [Prod.mk.injEq] at h
  all_goals obtain ⟨h1, h2, h3⟩ := h
  all_goals subst h1
  all_goals subst h2
  all_goals simp_all [nodeRegsOk, posOf]

/-- The `Include` arm emits a node that registers nothing. -/
lemma includeStep_regsOk (toks : List Token) (i : Nat) (t : Token) :
    nodeRegsOk toks i (includeStep t) [] = true := by
  unfold includeStep
  repeat' split
  all_goals simp [nodeRegsOk]

/-- Every non-panicking outcome of the `Keyword` arm satisfies the
node/registration correspondence. -/
lemma keywordStep_regsOk (toks : List Token) (i : Nat)
    (a : Ast) (rs : List Reg) (d : Nat)
    (h : keywordStep toks i = .ok (a, rs, d)) : nodeRegsOk toks i a rs = true := by
  unfold keywordStep at h
  repeat' split at h
  all_goals first
    | (simp only [Except.ok.injEq, Prod.mk.injEq] at h
       obtain ⟨h1, h2, h3⟩ := h
       subst h1; subst h2
       simp [nodeRegsOk])
    | simp at h

/-- Every non-panicking outcome of the `StaticExecution` arm satisfies the
node/registration correspondence. -/
lemma staticStep_regsOk (toks : List Token) (i : Nat)
    (a : Ast) (rs : List Reg) (d : Nat)
    (h : staticStep toks i = .ok (a, rs, d)) : nodeRegsOk toks i a rs = true := by
  unfold staticStep at h
  repeat' split at h
  all_goals first
    | (simp only [Except.ok.injEq, Prod.mk.injEq] at h
       obtain ⟨h1, h2, h3⟩ := h
       subst h1; subst h2
       simp [nodeRegsOk])
    | simp at h

/-- Every non-panicking outcome of one dispatch iteration satisfies the
node/registration correspondence at its cursor position. -/
lemma parseStep_regsOk (toks : List Token) (i : Nat) (json : Bool)
    (a : Ast) (rs : List Reg) (d : Nat)
    (h : parseStep toks i json = .ok (a, rs, d)) : nodeRegsOk toks i a rs = true := by
  unfold parseStep at h
  repeat' split at h
  all_goals first
    | (simp only [Except.ok.injEq, Prod.mk.injEq] at h
       obtain ⟨h1, h2, h3⟩ := h
       subst h1; subst h2
       first
        | exact includeStep_regsOk toks i (tokAt toks i)
        | simp [nodeRegsOk, posOf])
    | (injection h with h'
       exact identStep_regsOk toks i a rs d h')
    | exact keywordStep_regsOk toks i a rs d h
    | exact staticStep_regsOk toks i a rs d h

/-- The amount the `Identifier` arm adds to the cursor never points past the
buffer: each sub-case's length guard covers everything it consumes. -/
lemma identStep_d_bound (toks : List Token) (i : Nat)
    (a : Ast) (rs : List Reg) (d : Nat)
    (h : identStep toks i = (a, rs, d)) (hi : i < toks.length) :
    i + d + 1 ≤ toks.length := by
  unfold identStep at h
  repeat' split at h
  all_goals simp only [Prod.mk.injEq] at h
  all_goals obtain ⟨h1, h2, h3⟩ := h
  all_goals subst h3
  all_goals omega

/-- Cursor bound for the `Keyword` arm. -/
lemma keywordStep_d_bound (toks : List Token) (i : Nat)
    (a : Ast) (rs : List Reg) (d : Nat)
    (h : keywordStep toks i = .ok (a, rs, d)) (hi : i < toks.length) :
    i + d + 1 ≤ toks.length := by
  unfold keywordStep at h
  repeat' split at h
  all_goals first
    | (simp only [Except.ok.injEq, Prod.mk.injEq] at h
       obtain ⟨h1, h2, h3⟩ := h
       subst h3
       omega)
    | simp at h

/-- Cursor bound for the `StaticExecution` arm. -/
lemma staticStep_d_bound (toks : List Token) (i : Nat)
    (a : Ast) (rs : List Reg) (d : Nat)
    (h : staticStep toks i = .ok (a, rs, d)) (hi : i < toks.length) :
    i + d + 1 ≤ toks.length := by
  unfold staticStep at h
  repeat' split at h
  all_goals first
    | (simp only [Except.ok.injEq, Prod.mk.injEq] at h
       obtain ⟨h1, h2, h3⟩ := h
       subst h3
       omega)
    | simp at h

/-- After a non-panicking iteration entered in bounds, the new cursor
position `i + d + 1` still lies within the buffer (or just past its end). -/
lemma parseStep_d_bound (toks : List Token) (i : Nat) (json : Bool)
    (a : Ast) (rs : List Reg) (d : Nat)
    (h : parseStep toks i json = .ok (a, rs, d)) (hi : i < toks.length) :
    i + d + 1 ≤ toks.length := by
  unfold parseStep at h
  repeat' split at h
  all_goals first
    | (simp only [Except.ok.injEq, Prod.mk.injEq] at h
       obtain ⟨h1, h2, h3⟩ := h
       subst h3
       omega)
    | (injection h with h'
       exact identStep_d_bound toks i a rs d h' hi)
    | exact keywordStep_d_bound toks i a rs d h hi
    | exact staticStep_d_bound toks i a rs d h hi

/-- The only panic the `Keyword` arm can produce is the out-of-bounds index. -/
lemma keywordStep_error (toks : List Token) (i : Nat) (e : PanicKind)
    (h : keywordStep toks i = .error e) : e = .indexOOB := by
  unfold keywordStep at h
  repeat' split at h
  all_goals simp_all

/-- The only panic the `StaticExecution` arm can produce is the out-of-bounds
index. -/
lemma staticStep_error (toks : List Token) (i : Nat) (e : PanicKind)
    (h : staticStep toks i = .error e) : e = .indexOOB := by
  unfold staticStep at h
  repeat' split at h
  all_goals simp_all

/-- No dispatch branch produces the `endOfTokens` panic; the only panic a
dispatch iteration can produce is the out-of-bounds index. -/
lemma parseStep_error (toks : List Token) (i : Nat) (json : Bool) (e : PanicKind)
    (h : parseStep toks i json = .error e) : e = .indexOOB := by
  unfold parseStep at h
  repeat' split at h
  all_goals first
    | simp at h
    | exact keywordStep_error toks i e h
    | exact staticStep_error toks i e h

/-- Any successful run of the parse loop from cursor `i` decomposes its
registrations into per-node blocks satisfying `nodeRegsOk` at the successive
cursor positions. -/
lemma parseLoop_chunked (fuel : Nat) :
    ∀ (toks : List Token) (i : Nat) (json : Bool) (nodes : List Ast) (regs : List Reg),
      parseLoop fuel toks i json = .ok (nodes, regs) → Chunked toks i nodes regs := by
  induction fuel with
  | zero =>
    intro toks i json nodes regs h
    simp only [parseLoop, Except.ok.injEq, Prod.mk.injEq] at h
    obtain ⟨h1, h2⟩ := h
    subst h1; subst h2
    exact Chunked.nil i
  | succ f ih =>
    intro toks i json nodes regs h
    simp only [parseLoop] at h
    split at h
    · split at h
      · exact absurd h (by simp)
      · split at h
        · simp at h
        · split at h
          · simp at h
          · rename_i x1 node regs0 d heq x2 ns rs2 heq2
            simp only [Except.ok.injEq, Prod.mk.injEq] at h
            obtain ⟨h1, h2⟩ := h
            subst h1; subst h2
            exact Chunked.cons i d _ _ _ _
              (parseStep_regsOk toks i json node regs0 d heq)
              (ih toks (i + d + 1) json ns rs2 heq2)
    · simp only [Except.ok.injEq, Prod.mk.injEq] at h
      obtain ⟨h1, h2⟩ := h
      subst h1; subst h2
      exact Chunked.nil i

/-- A successful run started at cursor `i` emits at most `toks.length - i`
nodes: every iteration consumes at least one token. -/
lemma parseLoop_len (fuel : Nat) :
    ∀ (toks : List Token) (i : Nat) (json : Bool) (nodes : List Ast) (regs : List Reg),
      parseLoop fuel toks i json = .ok (nodes, regs) → nodes.length ≤ toks.length - i := by
  induction fuel with
  | zero =>
    intro toks i json nodes regs h
    simp only [parseLoop, Except.ok.injEq, Prod.mk.injEq] at h
    obtain ⟨h1, h2⟩ := h
    subst h1; subst h2
    simp
  | succ f ih =>
    intro toks i json nodes regs h
    simp only [parseLoop] at h
    split at h
    · split at h
      · exact absurd h (by simp)
      · split at h
        · simp at h
        · split at h
          · simp at h
          · rename_i x1 node regs0 d heq x2 ns rs2 heq2
            simp only [Except.ok.injEq, Prod.mk.injEq] at h
            obtain ⟨h1, h2⟩ := h
            subst h1; subst h2
            have hb := parseStep_d_bound toks i json node regs0 d heq (by omega)
            have hlen := ih toks (i + d + 1) json ns rs2 heq2
            simp only [List.length_cons]
            omega
    · simp only [Except.ok.injEq, Prod.mk.injEq] at h
      obtain ⟨h1, h2⟩ := h
      subst h1; subst h2
      simp

/-- A successful loop entered with positive fuel and the guard satisfied
emits at least one node: each pass through the loop body appends exactly one
node. -/
lemma parseLoop_nonempty (fuel : Nat) (toks : List Token) (i : Nat) (json : Bool)
    (nodes : List Ast) (regs : List Reg)
    (h : parseLoop (fuel + 1) toks i json = .ok (nodes, regs)) (hi : i < toks.length) :
    nodes ≠ [] := by
  simp only [parseLoop] at h
  split at h
  · split at h
    · exact absurd h (by simp)
    · split at h
      · simp at h
      · split at h
        · simp at h
        · rename_i x1 node regs0 d heq x2 ns rs2 heq2
          simp only [Except.ok.injEq, Prod.mk.injEq] at h
          obtain ⟨h1, h2⟩ := h
          subst h1
          simp
  · omega

/-- The `panic!("Reached the end of tokens")` check in the loop body is dead
code: whenever the body runs the loop guard has just established that the
cursor is strictly below the buffer length, so no run of the loop, from any
start position, ever produces the `endOfTokens` panic. -/
lemma parseLoop_no_end_panic (fuel : Nat) :
    ∀ (toks : List Token) (i : Nat) (json : Bool),
      hitsEndPanic (parseLoop fuel toks i json) = false := by
  induction fuel with
  | zero =>
    intro toks i json
    simp [parseLoop, hitsEndPanic]
  | succ f ih =>
    intro toks i json
    simp only [parseLoop]
    split
    · rename_i hguard
      rw [if_neg (by omega)]
      cases hs : parseStep toks i json with
      | error e =>
        have he := parseStep_error toks i json e hs
        subst he
        simp [hitsEndPanic]
      | ok v =>
        obtain ⟨node, regs0, d⟩ := v
        cases hr : parseLoop f toks (i + d + 1) json with
        | error e =>
          have hih := ih toks (i + d + 1) json
          rw [hr] at hih
          cases e with
          | endOfTokens => simp [hitsEndPanic] at hih
          | indexOOB => simp [hitsEndPanic, hr]
        | ok w =>
          obtain ⟨ns, rs2⟩ := w
          simp [hitsEndPanic, hr]
    · simp [hitsEndPanic]

/-- Fuel sufficiency: any fuel of at least `toks.length - i` gives the same
result, so `parse`'s choice of `toks.length` loses nothing — the fueled loop
is an exact rendering of the source's unbounded `while` loop. -/
lemma parseLoop_fuel_enough (f1 : Nat)  :
    ∀ (f2 : Nat) (toks : List Token) (i : Nat) (json : Bool),
      toks.length - i ≤ f1 → toks.length - i ≤ f2 →
      parseLoop f1 toks i json = parseLoop f2 toks i json := by
  induction f1 with
  | zero =>
    intro f2 toks i json h1 h2
    cases f2 with
    | zero => rfl
    | succ f2a =>
      simp only [parseLoop]
      rw [if_neg (by omega)]
  | succ f1a ih =>
    intro f2 toks i json h1 h2
    cases f2 with
    | zero =>
      simp only [parseLoop]
      rw [if_neg (by omega)]
    | succ f2a =>
      simp only [parseLoop]
      by_cases hg : toks.length > i
      · rw [if_pos hg, if_pos hg]
        rw [if_neg (show ¬i = toks.length by omega),
          if_neg (show ¬i = toks.length by omega)]
        cases hs : parseStep toks i json with
        | error e => rfl
        | ok v =>
          obtain ⟨node, regs0, d⟩ := v
          simp only [hs]
          rw [ih f2a toks (i + d + 1) json (by omega) (by omega)]
      · rw [if_neg hg, if_neg hg]

/-- Reading the token at a position known to hold `t` yields `t`. -/
lemma tokAt_of_get (toks : List Token) (i : Nat) (t : Token)
    (h : toks.get? i = some t) : tokAt toks i = t := by
  simp [tokAt, List.getD_eq_getElem?_getD, ← List.get?_eq_getElem?, h]

/-- Claim C1: the spec says any lookahead precondition not fully met degrades
gracefully to an `Other` or fewer-capture node, naming in particular a `cb`
`Keyword` token and a `StaticExecution` token with no token after them.  In
the code both of those read `tokens[index + 1]` with no bounds check, so a
buffer ending in either token aborts the whole parse with an out-of-bounds
panic instead of returning a node sequence.  This theorem evaluates the
embedded parser at both failing inputs. -/
theorem c1_trailing_lookahead_panics :
    parse [⟨.Keyword, "cb", 1, 1⟩] false = .error .indexOOB
    ∧ parse [⟨.StaticExecution, "!", 2, 4⟩] false = .error .indexOOB :=
  ⟨rfl, rfl⟩

/-- Claim C2: the spec says a winning rule advances the cursor past every
token it consumed and captured, in particular that after `StaticExecution`
followed by `Square` fires the `Square` token is not re-processed.  In the
code that arm captures the `Square` token but adds nothing to the cursor, so
the loop advances by one only and the same `Square` token is emitted a second
time as a separate `Other` node.  This theorem evaluates the parser at the
failing input: two nodes, both holding the one `Square` token. -/
theorem c2_staticexec_square_reprocessed :
    parse [⟨.StaticExecution, "!", 1, 1⟩, ⟨.Square, "[]", 1, 2⟩] false =
      .ok ([⟨[⟨.Square, "[]", 1, 2⟩], .StaticExecution⟩,
          ⟨[⟨.Square, "[]", 1, 2⟩], .Other⟩], []) :=
  rfl

/-- Claim C3, counterexample: on `Identifier Identifier Curly` the parser
emits one `StructVar` node — whose tag does not satisfy the declaration
predicate `is_decl` — and still performs a variable registration, so nodes
with a non-declaration tag do cause registrations, contradicting the claimed
one-to-one correspondence between declaration-tagged nodes and
registrations. -/
theorem c3_structvar_registration_counterexample :
    parse [⟨.Identifier, "Point", 1, 1⟩, ⟨.Identifier, "p", 1, 7⟩,
        ⟨.Curly, "", 1, 9⟩] false =
      .ok ([⟨[⟨.Identifier, "Point", 1, 1⟩, ⟨.Identifier, "p", 1, 7⟩,
          ⟨.Curly, "", 1, 9⟩], .StructVar⟩],
        [⟨.rvar, "p", ⟨1, 7⟩, ""⟩])
    ∧ is_decl ⟨[⟨.Identifier, "Point", 1, 1⟩, ⟨.Identifier, "p", 1, 7⟩,
        ⟨.Curly, "", 1, 9⟩], .StructVar⟩ = false :=
  ⟨rfl, rfl⟩

/-- Claim C3, amended: for every input buffer the registrations performed by
a successful parse decompose, in order, into one block per emitted node
satisfying `nodeRegsOk` at the cursor position where that node was emitted:
exactly one registration for each node tagged struct, namespace, function,
void-function, plain/generic variable, pointer — or `StructVar`, which also
registers — and none for any other tag; the registration's name and position
match the captured name token except for the generic-type variable form,
which registers under the `Angle` token's text and position, and the pointer
form, which registers under the star token's text (`"*"`) and position;
`MutVariableDeceleration` is never emitted. -/
theorem c3_registration_chunks :
    ∀ (toks : List Token) (json : Bool) (nodes : List Ast) (regs : List Reg),
      parse toks json = .ok (nodes, regs) → Chunked toks 0 nodes regs :=
  fun toks json nodes regs h => parseLoop_chunked toks.length toks 0 json nodes regs h

/-- Witness for claim C3's amended theorem at the `struct Foo {` buffer. -/
theorem c3_registration_chunks_witness :
    Chunked [⟨.Identifier, "struct", 1, 1⟩, ⟨.Identifier, "Foo", 1, 8⟩, ⟨.Curly, "", 1, 12⟩]
      0
      [⟨[⟨.Identifier, "Foo", 1, 8⟩, ⟨.Curly, "", 1, 12⟩], .StructDeceleration⟩]
      [⟨.rstruct, "Foo", ⟨1, 8⟩, ""⟩] :=
  c3_registration_chunks
    [⟨.Identifier, "struct", 1, 1⟩, ⟨.Identifier, "Foo", 1, 8⟩, ⟨.Curly, "", 1, 12⟩]
    false _ _ rfl

/-- Claim C4, counterexample: on `Identifier("int") "*" Identifier("x")` the
parser does not return a node capturing only `x` with a registration named
`"x"` — no doc string makes the claimed output equal the actual one. -/
theorem c4_pointer_scenario_counterexample :
    ¬ ∃ pos doc,
      parse [⟨.Identifier, "int", 1, 1⟩, ⟨.String, "*", 1, 5⟩,
          ⟨.Identifier, "x", 1, 7⟩] false =
        .ok ([⟨[⟨.Identifier, "x", 1, 7⟩], .PointerDeceleration⟩],
          [⟨.rvar, "x", pos, doc⟩]) := by
  rintro ⟨pos, doc, h⟩
  have hx : parse [⟨.Identifier, "int", 1, 1⟩, ⟨.String, "*", 1, 5⟩,
      ⟨.Identifier, "x", 1, 7⟩] false =
      .ok ([⟨[⟨.Identifier, "int", 1, 1⟩, ⟨.Identifier, "x", 1, 7⟩], .PointerDeceleration⟩],
        [⟨.rvar, "*", ⟨1, 5⟩, ""⟩]) := rfl
  rw [hx] at h
  simp at h

/-- Claim C4, amended: on `Identifier("int") "*" Identifier("x")` the parser
returns exactly one `PointerDeceleration` node capturing the leading type
identifier as well, `[int, x]`, and the single variable registration takes
its name and position from the star token (name `"*"`), not from `x`. -/
theorem c4_pointer_scenario_actual :
    parse [⟨.Identifier, "int", 1, 1⟩, ⟨.String, "*", 1, 5⟩,
        ⟨.Identifier, "x", 1, 7⟩] false =
      .ok ([⟨[⟨.Identifier, "int", 1, 1⟩, ⟨.Identifier, "x", 1, 7⟩], .PointerDeceleration⟩],
        [⟨.rvar, "*", ⟨1, 5⟩, ""⟩]) :=
  rfl

/-- Claim C5, counterexample: on the `void main ( ) {` buffer the emitted
node does not capture `[main, Round, Curly]` — the leading `void` identifier
is captured too — so the claimed output is not the actual one for any doc
string. -/
theorem c5_void_function_counterexample :
    ¬ ∃ doc,
      parse [⟨.Identifier, "void", 1, 1⟩, ⟨.Identifier, "main", 1, 6⟩,
          ⟨.Round, "()", 1, 10⟩, ⟨.Curly, "", 1, 13⟩] false =
        .ok ([⟨[⟨.Identifier, "main", 1, 6⟩, ⟨.Round, "()", 1, 10⟩,
            ⟨.Curly, "", 1, 13⟩], .VoidFunctionDeceleration⟩],
          [⟨.rfunc, "main", ⟨1, 6⟩, doc⟩]) := by
  rintro ⟨doc, h⟩
  have hx : parse [⟨.Identifier, "void", 1, 1⟩, ⟨.Identifier, "main", 1, 6⟩,
      ⟨.Round, "()", 1, 10⟩, ⟨.Curly, "", 1, 13⟩] false =
      .ok ([⟨[⟨.Identifier, "void", 1, 1⟩, ⟨.Identifier, "main", 1, 6⟩,
          ⟨.Round, "()", 1, 10⟩, ⟨.Curly, "", 1, 13⟩], .VoidFunctionDeceleration⟩],
        [⟨.rfunc, "main", ⟨1, 6⟩, ""⟩]) := rfl
  rw [hx] at h
  simp at h

/-- Claim C5, amended: on `void main ( ) {` the parser emits exactly one
`VoidFunctionDeceleration` node capturing `[void, main, Round, Curly]`
(the leading identifier included) and registers function `"main"` at the
second identifier's position; with any other leading identifier value — other
than `"&"`, which the higher-priority reference rule captures first — the tag
is `FunctionDeceleration` instead, with the same capture shape and the same
registration. -/
theorem c5_void_function_actual (v : String) (l c : Nat)
    (hv : v ≠ "void") (ha : v ≠ "&") :
    parse [⟨.Identifier, "void", 1, 1⟩, ⟨.Identifier, "main", 1, 6⟩,
        ⟨.Round, "()", 1, 10⟩, ⟨.Curly, "", 1, 13⟩] false =
      .ok ([⟨[⟨.Identifier, "void", 1, 1⟩, ⟨.Identifier, "main", 1, 6⟩,
          ⟨.Round, "()", 1, 10⟩, ⟨.Curly, "", 1, 13⟩], .VoidFunctionDeceleration⟩],
        [⟨.rfunc, "main", ⟨1, 6⟩, ""⟩])
    ∧ parse [⟨.Identifier, v, l, c⟩, ⟨.Identifier, "main", 1, 6⟩,
        ⟨.Round, "()", 1, 10⟩, ⟨.Curly, "", 1, 13⟩] false =
      .ok ([⟨[⟨.Identifier, v, l, c⟩, ⟨.Identifier, "main", 1, 6⟩,
          ⟨.Round, "()", 1, 10⟩, ⟨.Curly, "", 1, 13⟩], .FunctionDeceleration⟩],
        [⟨.rfunc, "main", ⟨1, 6⟩, ""⟩]) := by
  refine ⟨rfl, ?_⟩
  simp [parse, parseLoop, parseStep, identStep, tokAt, docAt, posOf, hv, ha]

/-- Witness for claim C5's amended theorem with leading identifier `"int"`. -/
theorem c5_void_function_actual_witness :
    parse [⟨.Identifier, "void", 1, 1⟩, ⟨.Identifier, "main", 1, 6⟩,
        ⟨.Round, "()", 1, 10⟩, ⟨.Curly, "", 1, 13⟩] false =
      .ok ([⟨[⟨.Identifier, "void", 1, 1⟩, ⟨.Identifier, "main", 1, 6⟩,
          ⟨.Round, "()", 1, 10⟩, ⟨.Curly, "", 1, 13⟩], .VoidFunctionDeceleration⟩],
        [⟨.rfunc, "main", ⟨1, 6⟩, ""⟩])
    ∧ parse [⟨.Identifier, "int", 2, 3⟩, ⟨.Identifier, "main", 1, 6⟩,
        ⟨.Round, "()", 1, 10⟩, ⟨.Curly, "", 1, 13⟩] false =
      .ok ([⟨[⟨.Identifier, "int", 2, 3⟩, ⟨.Identifier, "main", 1, 6⟩,
          ⟨.Round, "()", 1, 10⟩, ⟨.Curly, "", 1, 13⟩], .FunctionDeceleration⟩],
        [⟨.rfunc, "main", ⟨1, 6⟩, ""⟩]) :=
  c5_void_function_actual "int" 2 3 (by decide) (by decide)

/-- Claim C6: a successful parse emits at most one node per input token (each
loop pass consumes at least one token and appends exactly one node), and on a
nonempty buffer it emits at least one node. -/
theorem c6_output_bounded :
    ∀ (toks : List Token) (json : Bool) (nodes : List Ast) (regs : List Reg),
      parse toks json = .ok (nodes, regs) →
      nodes.length ≤ toks.length ∧ (toks ≠ [] → nodes ≠ []) := by
  intro toks json nodes regs h
  constructor
  · have hl := parseLoop_len toks.length toks 0 json nodes regs h
    omega
  · intro hne
    have hpos : 0 < toks.length := by
      cases toks with
      | nil => exact absurd rfl hne
      | cons a l => simp
    obtain ⟨f, hf⟩ : ∃ f, toks.length = f + 1 := ⟨toks.length - 1, by omega⟩
    unfold parse at h
    rw [hf] at h
    exact parseLoop_nonempty f toks 0 json nodes regs h hpos

/-- Witness for claim C6 at a one-token buffer. -/
theorem c6_output_bounded_witness :
    ([⟨[⟨.Identifier, "x", 1, 1⟩], .Other⟩] : List Ast).length ≤
        ([⟨.Identifier, "x", 1, 1⟩] : List Token).length
    ∧ (([⟨.Identifier, "x", 1, 1⟩] : List Token) ≠ [] →
        ([⟨[⟨.Identifier, "x", 1, 1⟩], .Other⟩] : List Ast) ≠ []) :=
  c6_output_bounded [⟨.Identifier, "x", 1, 1⟩] false
    [⟨[⟨.Identifier, "x", 1, 1⟩], .Other⟩] [] rfl

/-- Claim C7, counterexample: an `Include`-typed token whose value is `"&"`
followed by an identifier is captured by the higher-priority reference rule,
which tests only the token's value — the parse emits a `Ref` node and no
`Include`/`IncludeLocal` node at all, so it is not true that every token of
type `Include` is processed by the include patterns. -/
theorem c7_include_preempted_counterexample :
    parse [⟨.Include, "&", 1, 1⟩, ⟨.Identifier, "x", 1, 3⟩] false =
      .ok ([⟨[⟨.Identifier, "x", 1, 3⟩], .Ref⟩], [])
    ∧ AstType.Ref ≠ AstType.Include ∧ AstType.Ref ≠ AstType.IncludeLocal :=
  ⟨rfl, by decide⟩

/-- Claim C7, amended: whenever the token at the cursor has type `Include`
and no higher-priority value-keyed rule preempts it (its value is not `"&"`,
`"struct"`, `"namespace"` or `"impl"`, and JSON mode is off), the iteration
emits the `Include`-arm node with no registration and no extra cursor
advance; that arm tries the angle-form pattern first (tag `Include` with one
synthesized path token), then the quoted-form pattern (tag `IncludeLocal`),
and otherwise keeps the raw token under tag `Include`. -/
theorem c7_include_dispatch_order (toks : List Token) (i : Nat) (t : Token)
    (hget : toks.get? i = some t) (htype : t.token_type = .Include)
    (h1 : t.value ≠ "&") (h2 : t.value ≠ "struct")
    (h3 : t.value ≠ "namespace") (h4 : t.value ≠ "impl") :
    parseStep toks i false = .ok (includeStep t, [], 0)
    ∧ (∀ p, includeCapture '<' '>' t.value = some p →
        includeStep t = ⟨[⟨.String, p, 0, 0⟩], .Include⟩)
    ∧ (includeCapture '<' '>' t.value = none →
        ∀ p, includeCapture '"' '"' t.value = some p →
        includeStep t = ⟨[⟨.String, p, 0, 0⟩], .IncludeLocal⟩)
    ∧ (includeCapture '<' '>' t.value = none →
        includeCapture '"' '"' t.value = none →
        includeStep t = ⟨[t], .Include⟩) := by
  have ht := tokAt_of_get toks i t hget
  refine ⟨?_, ?_, ?_, ?_⟩
  · unfold parseStep
    rw [ht]
    simp [htype, h1, h2, h3, h4]
  · intro p hp
    unfold includeStep
    rw [hp]
  · intro hn p hp
    unfold includeStep
    rw [hn, hp]
  · intro hn hn2
    unfold includeStep
    rw [hn, hn2]

/-- Witness for claim C7's amended theorem at a standard include token. -/
theorem c7_include_dispatch_order_witness :
    parseStep [⟨.Include, "#include <stdio.h>", 3, 7⟩] 0 false =
      .ok (includeStep ⟨.Include, "#include <stdio.h>", 3, 7⟩, [], 0) :=
  (c7_include_dispatch_order [⟨.Include, "#include <stdio.h>", 3, 7⟩] 0
    ⟨.Include, "#include <stdio.h>", 3, 7⟩ rfl rfl
    (by decide) (by decide) (by decide) (by decide)).1

/-- Claim C8: on `struct Foo {` the parser emits one `StructDeceleration`
node capturing `[Foo, Curly]` and registers struct `"Foo"` at the
identifier's position; the registration's doc string is the text of the token
immediately preceding the rule's trigger position when that token is a
`Comment` (second conjunct), and empty when there is no preceding token
(first conjunct) or the preceding token is not a `Comment` (third
conjunct). -/
theorem c8_struct_scenario_and_doc :
    parse [⟨.Identifier, "struct", 1, 1⟩, ⟨.Identifier, "Foo", 1, 8⟩,
        ⟨.Curly, "", 1, 12⟩] false =
      .ok ([⟨[⟨.Identifier, "Foo", 1, 8⟩, ⟨.Curly, "", 1, 12⟩], .StructDeceleration⟩],
        [⟨.rstruct, "Foo", ⟨1, 8⟩, ""⟩])
    ∧ parse [⟨.Comment, "doc for Foo", 1, 1⟩, ⟨.Identifier, "struct", 2, 1⟩,
        ⟨.Identifier, "Foo", 2, 8⟩, ⟨.Curly, "", 2, 12⟩] false =
      .ok ([⟨[⟨.Comment, "doc for Foo", 1, 1⟩], .Other⟩,
          ⟨[⟨.Identifier, "Foo", 2, 8⟩, ⟨.Curly, "", 2, 12⟩], .StructDeceleration⟩],
        [⟨.rstruct, "Foo", ⟨2, 8⟩, "doc for Foo"⟩])
    ∧ parse [⟨.String, "s", 1, 1⟩, ⟨.Identifier, "struct", 2, 1⟩,
        ⟨.Identifier, "Foo", 2, 8⟩, ⟨.Curly, "", 2, 12⟩] false =
      .ok ([⟨[⟨.String, "s", 1, 1⟩], .Other⟩,
          ⟨[⟨.Identifier, "Foo", 2, 8⟩, ⟨.Curly, "", 2, 12⟩], .StructDeceleration⟩],
        [⟨.rstruct, "Foo", ⟨2, 8⟩, ""⟩]) :=
  ⟨rfl, rfl, rfl⟩

/-- Claim C9: the fatal cursor-at-end check inside the loop body is
unreachable — no run of the parse loop, from any fuel and start position, and
no full parse, ever produces the `endOfTokens` panic, because the loop guard
has just established that the cursor is strictly below the buffer length. -/
theorem c9_end_panic_unreachable :
    ∀ (toks : List Token) (json : Bool) (fuel i : Nat),
      hitsEndPanic (parseLoop fuel toks i json) = false
      ∧ hitsEndPanic (parse toks json) = false :=
  fun toks json fuel i =>
    ⟨parseLoop_no_end_panic fuel toks i json,
      parseLoop_no_end_panic toks.length toks 0 json⟩

/-- Claim C10: whenever a lone `Include` token matches the angle-form or
quoted-form pattern, the single synthesized path token in the emitted node
has token type `String` and carries line 0 and column 0, whatever the
original token's source position `(l, c)` — the original position is not
forwarded. -/
theorem c10_synth_token_zero_position (v p : String) (l c : Nat) :
    (includeCapture '<' '>' v = some p →
      parse [⟨.Include, v, l, c⟩] false =
        .ok ([⟨[⟨.String, p, 0, 0⟩], .Include⟩], []))
    ∧ (includeCapture '<' '>' v = none → includeCapture '"' '"' v = some p →
      parse [⟨.Include, v, l, c⟩] false =
        .ok ([⟨[⟨.String, p, 0, 0⟩], .IncludeLocal⟩], [])) := by
  constructor
  · intro hp
    simp [parse, parseLoop, parseStep, includeStep, tokAt, hp]
  · intro hn hp
    simp [parse, parseLoop, parseStep, includeStep, tokAt, hn, hp]

/-- Witness for claim C10 at the angle-form include token. -/
theorem c10_synth_token_zero_position_witness :
    parse [⟨.Include, "#include <stdio.h>", 5, 9⟩] false =
      .ok ([⟨[⟨.String, "stdio.h", 0, 0⟩], .Include⟩], []) :=
  (c10_synth_token_zero_position "#include <stdio.h>" "stdio.h" 5 9).1 rfl

end Wyst
